import Mathlib

/-!
Verification development for the sayly-backend speaker-verification core.

Each definition below is a shallow embedding of one function of the
repository, translated from the Python source:

* `Sayly.apply_decision_v1`, `Sayly.verify_speaker`, `Sayly.mkVerificationDecision`
  embed `app/models/verification.py` (`VerificationPolicy.apply_decision_v1`,
  the pydantic range validation of `VerificationDecision`) and
  `app/services/verification_service.py` (`verify_speaker`).  Floating-point
  similarity values are modelled as rationals; `verify_speaker` is embedded at
  the point where the list of cosine similarities has been computed (the
  similarity loop of lines 93-104), since the similarities themselves are
  produced by real-valued numpy arithmetic.
* `Sayly.mkThresholdConfig`, `Sayly.get_threshold_config` embed
  `app/models/threshold_config.py` (pydantic field validation) and
  `app/services/threshold_service.py` (`get_threshold_config` with its
  Firestore / environment-variable / default fallback chain; the Firestore
  document and the environment variables are inputs of the model).
-/

namespace Sayly

/-- User-facing decision values (`Literal["OWNER", "OTHER"]`). -/
inductive UserDecision where
  | OWNER
  | OTHER
deriving DecidableEq, Repr

/-- Internal state values (`Literal["OWNER", "UNCERTAIN", "OTHER", "SKIPPED"]`). -/
inductive InternalState where
  | OWNER
  | UNCERTAIN
  | OTHER
  | SKIPPED
deriving DecidableEq, Repr

/-- `VerificationPolicy.apply_decision_v1` of `app/models/verification.py`
(lines 158-182): internal state from `max_similarity` against the two
thresholds, user decision binary. -/
def apply_decision_v1 (maxSimilarity ownerThreshold uncertainThreshold : ℚ) :
    UserDecision × InternalState :=
  if ownerThreshold ≤ maxSimilarity then (UserDecision.OWNER, InternalState.OWNER)
  else if uncertainThreshold ≤ maxSimilarity then (UserDecision.OTHER, InternalState.UNCERTAIN)
  else (UserDecision.OTHER, InternalState.OTHER)

/-- The `VerificationDecision` pydantic model of `app/models/verification.py`
(lines 12-51), restricted to the fields the claims are about. -/
structure VerificationDecision where
  decision : UserDecision
  internalState : InternalState
  maxSimilarity : ℚ
  topKMean : ℚ
  allSimilarities : List ℚ
deriving DecidableEq, Repr

/-- Constructing a `VerificationDecision` runs the pydantic field validators:
`maxSimilarity` and `topKMean` both carry `ge=0.0, le=1.0`, so construction
raises (here: returns an error) when either lies outside the unit interval. -/
def mkVerificationDecision (d : UserDecision) (s : InternalState)
    (maxSim topK : ℚ) (allSims : List ℚ) : Except String VerificationDecision :=
  if 0 ≤ maxSim ∧ maxSim ≤ 1 then
    if 0 ≤ topK ∧ topK ≤ 1 then
      Except.ok ⟨d, s, maxSim, topK, allSims⟩
    else Except.error "topKMean must be in the range 0 to 1"
  else Except.error "maxSimilarity must be in the range 0 to 1"

/-- Python `max` over a non-empty list (`max(similarities)`); `0` is a junk
value for the empty list, which `verify_speaker` never reaches. -/
def listMax : List ℚ → ℚ
  | [] => 0
  | x :: xs => xs.foldl max x

/-- Insert into a descending-sorted list, keeping it descending. -/
def insertDesc (x : ℚ) : List ℚ → List ℚ
  | [] => [x]
  | y :: ys => if y ≤ x then x :: y :: ys else y :: insertDesc x ys

/-- Python `sorted(similarities, reverse=True)`. -/
def sortDesc : List ℚ → List ℚ
  | [] => []
  | x :: xs => insertDesc x (sortDesc xs)

/-- `sorted_similarities[:top_k]` with `top_k = min(2, len(sorted_similarities))`. -/
def topKList (sims : List ℚ) : List ℚ :=
  (sortDesc sims).take (min 2 (sortDesc sims).length)

/-- `verify_speaker` of `app/services/verification_service.py` (lines 47-145),
embedded at the similarity level: `sims` is the list of cosine similarities of
the probe against each enrollment embedding, in enrollment order.  An empty
enrollment set raises; otherwise `max_similarity`, the top-K (K=2) mean and the
v1 decision are computed and the `VerificationDecision` is constructed (whose
pydantic validation can itself raise). -/
def verify_speaker (sims : List ℚ) (ownerThreshold uncertainThreshold : ℚ) :
    Except String VerificationDecision :=
  match sims with
  | [] => Except.error "No enrollment embeddings provided"
  | s :: rest =>
      mkVerificationDecision
        (apply_decision_v1 (listMax (s :: rest)) ownerThreshold uncertainThreshold).1
        (apply_decision_v1 (listMax (s :: rest)) ownerThreshold uncertainThreshold).2
        (listMax (s :: rest))
        ((topKList (s :: rest)).sum / ((topKList (s :: rest)).length : ℚ))
        (s :: rest)

/-- The `ThresholdConfig` pydantic model of `app/models/threshold_config.py`
(lines 13-46), restricted to the validated fields. -/
structure ThresholdConfig where
  environment : String
  ownerThreshold : ℚ
  uncertainThreshold : ℚ
deriving DecidableEq, Repr

/-- Constructing a `ThresholdConfig` runs the pydantic validators: the
environment literal and `ge=0.0, le=1.0` on both thresholds.  No validator
relates the two thresholds to each other. -/
def mkThresholdConfig (env : String) (ot ut : ℚ) : Except String ThresholdConfig :=
  if env = "dev" ∨ env = "test" ∨ env = "prod" then
    if 0 ≤ ot ∧ ot ≤ 1 then
      if 0 ≤ ut ∧ ut ≤ 1 then Except.ok ⟨env, ot, ut⟩
      else Except.error "uncertainThreshold must be in the range 0 to 1"
    else Except.error "ownerThreshold must be in the range 0 to 1"
  else Except.error "environment must be one of dev, test, prod"

/-- `DEFAULT_OWNER_THRESHOLD` of `app/services/threshold_service.py` (0.75). -/
def defaultOwnerThreshold : ℚ := 3 / 4

/-- `DEFAULT_UNCERTAIN_THRESHOLD` of `app/services/threshold_service.py` (0.6). -/
def defaultUncertainThreshold : ℚ := 3 / 5

/-- `get_threshold_config` of `app/services/threshold_service.py` (lines
30-75).  `fsConfig` is the Firestore document for the environment (if any);
a Firestore document that fails validation is swallowed by the `except` and
the chain falls through to the environment-variable overrides `envOwner`,
`envUncertain`, then to the built-in defaults.  The fallback construction is
not wrapped, so its validation error propagates. -/
def get_threshold_config (fsConfig : Option (String × ℚ × ℚ))
    (envOwner envUncertain : Option ℚ) (env : String) : Except String ThresholdConfig :=
  match fsConfig with
  | some (e, ot, ut) =>
      match mkThresholdConfig e ot ut with
      | Except.ok c => Except.ok c
      | Except.error _ =>
          mkThresholdConfig env (envOwner.getD defaultOwnerThreshold)
            (envUncertain.getD defaultUncertainThreshold)
  | none =>
      mkThresholdConfig env (envOwner.getD defaultOwnerThreshold)
        (envUncertain.getD defaultUncertainThreshold)

/-!
Audio quality validation, `app/services/audio_quality_service.py`.
`validate_audio_quality` (lines 118-208) loads the clip, derives six metrics
and then checks each metric independently, appending a reason code per failing
check; the status is `PASS` exactly when no reason was appended.  The model
takes the derived metrics as input (the decode itself is external pydub);
`calculate_silence_ratio` (lines 50-79) is embedded with the list of
non-silent intervals returned by pydub `detect_nonsilent` as its input.
-/

/-- Module-level thresholds of `audio_quality_service.py` at their built-in
defaults (`AUDIO_MIN_DURATION_SECONDS=4.0`, `AUDIO_MAX_SILENCE_RATIO=0.30`,
`AUDIO_MIN_RMS=500.0`, `AUDIO_MAX_CLIPPING_RATIO=0.05`,
`AUDIO_SAMPLE_RATE=16000`, `AUDIO_SAMPLE_RATE_TOLERANCE=1000`). -/
def minDurationSeconds : ℚ := 4

/-- `MAX_SILENCE_RATIO` default. -/
def maxSilenceRatio : ℚ := 3 / 10

/-- `MIN_RMS_THRESHOLD` default. -/
def minRmsThreshold : ℚ := 500

/-- `MAX_CLIPPING_RATIO` default. -/
def maxClippingRatioQ : ℚ := 1 / 20

/-- The metrics `validate_audio_quality` extracts from a decoded clip
(lines 142-148 of `audio_quality_service.py`). -/
structure AudioMetrics where
  durationMs : ℕ
  silenceRatio : ℚ
  rms : ℚ
  clippingRatio : ℚ
  sampleRate : ℤ
  channels : ℕ
deriving DecidableEq, Repr

/-- Result of quality validation (`AudioQualityResult`, status plus the
collected reason codes). -/
structure AudioQualityResult where
  status : String
  reasons : List String
deriving DecidableEq, Repr

/-- `calculate_silence_ratio` of `audio_quality_service.py` (lines 50-79):
`nonsilent` is the list of `(start_ms, end_ms)` intervals pydub
`detect_nonsilent` found (external); an empty clip or an all-silent clip has
ratio 1, otherwise the ratio is `1 - nonsilent/total`, clamped into `[0, 1]`. -/
def calculate_silence_ratio (totalMs : ℕ) (nonsilent : List (ℕ × ℕ)) : ℚ :=
  if totalMs = 0 then 1
  else if nonsilent = [] then 1
  else
    max 0 (min 1 (1 - ((nonsilent.map fun p => (p.2 : ℚ) - (p.1 : ℚ))).sum / (totalMs : ℚ)))

/-- The six independent checks of `validate_audio_quality` (lines 161-183), in
source order, each appending its reason code when it fails. -/
def qualityReasons (m : AudioMetrics) : List String :=
  (if (m.durationMs : ℚ) / 1000 < minDurationSeconds then ["TOO_SHORT"] else []) ++
  (if maxSilenceRatio < m.silenceRatio then ["TOO_SILENT"] else []) ++
  (if m.rms < minRmsThreshold then ["TOO_QUIET"] else []) ++
  (if maxClippingRatioQ < m.clippingRatio then ["TOO_MUCH_CLIPPING"] else []) ++
  (if 1000 < |m.sampleRate - 16000| then ["INVALID_SAMPLE_RATE"] else []) ++
  (if m.channels ≠ 1 then ["INVALID_CHANNELS"] else [])

/-- `validate_audio_quality` (lines 185-198): `FAIL` with the collected
reasons when any check failed, else `PASS`. -/
def validate_audio_quality (m : AudioMetrics) : AudioQualityResult :=
  if qualityReasons m = [] then ⟨"PASS", qualityReasons m⟩
  else ⟨"FAIL", qualityReasons m⟩

/-!
Audio chunking, `app/services/audio_chunking_service.py`.
`split_audio` (lines 27-124) walks the recording in integer milliseconds
(pydub slicing unit) with the default `chunk_duration=12.0` s and
`overlap=0.5` s; `reconstruct_audio_from_chunks` (lines 150-203) concatenates
the chunks whose decision qualifies.  A chunk is modelled by its timing, and
for reconstruction a chunk is its pydub segment, a list whose length is its
duration in milliseconds.
-/

/-- `AudioChunk` timing metadata (`start_time`/`end_time`/`index`), in
milliseconds. -/
structure AudioChunk where
  startMs : ℕ
  endMs : ℕ
  index : ℕ
deriving DecidableEq, Repr

/-- `int(chunk_duration * 1000)` for the default `chunk_duration = 12.0`. -/
def chunkDurationMs : ℕ := 12000

/-- `int(overlap * 1000)` for the default `overlap = 0.5`. -/
def overlapMs : ℕ := 500

/-- The `while current_start_ms < total_duration_ms` loop of `split_audio`
(lines 85-121): slice `[cur, min(cur+12000, total))`; stop without emitting if
the slice is under 1000 ms; otherwise emit it and advance to `end - 500`,
stopping after the emitted count (`chunk_index`) exceeds 1000. -/
def splitLoop (totalMs cur idx : ℕ) : List AudioChunk :=
  if cur < totalMs then
    if min (cur + chunkDurationMs) totalMs - cur < 1000 then []
    else
      ⟨cur, min (cur + chunkDurationMs) totalMs, idx⟩ ::
        (if 1000 < idx + 1 then []
         else splitLoop totalMs (min (cur + chunkDurationMs) totalMs - overlapMs) (idx + 1))
  else []
termination_by totalMs - cur
decreasing_by
  simp only [chunkDurationMs, overlapMs] at *
  omega

/-- `split_audio` at the default parameters, over the total duration of the
recording in milliseconds. -/
def split_audio (totalMs : ℕ) : List AudioChunk :=
  splitLoop totalMs 0 0

/-- Decision strings attached to chunks (`OWNER/UNCERTAIN/OTHER/SKIPPED`). -/
inductive ChunkDecision where
  | OWNER
  | UNCERTAIN
  | OTHER
  | SKIPPED
deriving DecidableEq, Repr

/-- The filter of `reconstruct_audio_from_chunks` (line 186):
`decision == "OWNER" or (decision == "UNCERTAIN" and include_uncertain)`. -/
def includeChunk (d : ChunkDecision) (includeUncertain : Bool) : Bool :=
  (d == ChunkDecision.OWNER) || ((d == ChunkDecision.UNCERTAIN) && includeUncertain)

/-- The `included_chunks` list built by the `zip` loop (lines 184-187),
keeping original order.  A chunk is its audio segment, length = duration in
milliseconds. -/
def included_chunks (chunks : List (List ℤ)) (decisions : List ChunkDecision)
    (includeUncertain : Bool) : List (List ℤ) :=
  ((chunks.zip decisions).filter fun p => includeChunk p.2 includeUncertain).map Prod.fst

/-- `reconstruct_audio_from_chunks` (lines 150-203): raise on a count
mismatch; with no qualifying chunk export 100 ms of silence
(`AudioSegment.silent(duration=100)`); otherwise concatenate the qualifying
chunks in order. -/
def reconstruct_audio_from_chunks (chunks : List (List ℤ))
    (decisions : List ChunkDecision) (includeUncertain : Bool) : Except String (List ℤ) :=
  if chunks.length ≠ decisions.length then
    Except.error "Chunks and decisions count mismatch"
  else if included_chunks chunks decisions includeUncertain = [] then
    Except.ok (List.replicate 100 0)
  else
    Except.ok (included_chunks chunks decisions includeUncertain).flatten

/-!
Local MFCC embedding extraction, `app/services/embedding_service.py`.
The pipeline is embedded over the reals (the Python code computes in floating
point; the exact real semantics of each numpy/scipy primitive is written out).
The model starts from the decoded mono signal at 16 kHz, which is what
`extract_speaker_embedding` feeds to `extract_mfcc` after the external
`wavfile.read`, channel averaging and `scipy.signal.resample` steps; the model
therefore quantifies over every possible such signal.

Control flow of `extract_speaker_embedding` (lines 36-99): the only inputs on
which the numeric pipeline raises are the empty signal (`audio.max()` over an
empty array raises) and a signal whose frame count is zero
(`np.min(mfcc_features, axis=0)` over a zero-row array raises); both raised
errors are caught and re-raised as `ValueError`.  Every other signal produces
an embedding: `num_frames = ceil(abs(len - 512) / 160)` is positive for every
length other than 512 (the `abs` makes short signals frame-positive and the
frame buffer is zero-padded), so no short-input error exists anywhere in the
pipeline.
-/

/-- `num_frames = int(ceil(abs(signal_length - frame_length) / frame_step))`
of `extract_mfcc` (line 124), with `frame_length = n_fft = 512` and
`frame_step = hop_length = 160`. -/
def numFrames (len : ℕ) : ℕ :=
  (((len : ℤ) - 512).natAbs + 159) / 160

/-- Pre-emphasis (line 118): `emphasized = append(audio[0], audio[1:] -
0.97 * audio[:-1])`. -/
noncomputable def preEmphasis : List ℝ → List ℝ
  | [] => []
  | x :: xs => x :: List.zipWith (fun c p => c - 0.97 * p) xs (x :: xs)

/-- Zero padding of the emphasized signal to `num_frames * 160 + 512` samples
(lines 126-128). -/
noncomputable def padSignal (e : List ℝ) : List ℝ :=
  e ++ List.replicate (numFrames e.length * 160 + 512 - e.length) 0

/-- Frame `i`: samples `[i*160, i*160 + 512)` of the padded signal
(lines 130-132). -/
noncomputable def frameAt (p : List ℝ) (i : ℕ) : List ℝ :=
  (p.drop (i * 160)).take 512

/-- The frame matrix: one row per frame (lines 130-132). -/
noncomputable def signalFrames (e : List ℝ) : List (List ℝ) :=
  (List.range (numFrames e.length)).map (frameAt (padSignal e))

/-- `np.hamming(512)` coefficient `n`: `0.54 - 0.46 * cos(2 pi n / 511)`. -/
noncomputable def hammingCoeff (n : ℕ) : ℝ :=
  0.54 - 0.46 * Real.cos (2 * Real.pi * n / 511)

/-- `frames *= np.hamming(frame_length)` (line 135) applied to one frame. -/
noncomputable def windowedFrame (f : List ℝ) : List ℝ :=
  List.ofFn fun n : Fin 512 => f.getD n.val 0 * hammingCoeff n.val

/-- `np.absolute(np.fft.rfft(frames, 512))` (line 138), bin `k` of one frame. -/
noncomputable def rfftMag (f : List ℝ) (k : ℕ) : ℝ :=
  Complex.abs (∑ n : Fin 512,
    ((f.getD n.val 0 : ℝ) : ℂ) *
      Complex.exp (-(2 * Real.pi * Complex.I * (k : ℂ) * (n.val : ℂ)) / 512))

/-- `pow_frames = (1/512) * mag ** 2` (line 139). -/
noncomputable def powerSpec (f : List ℝ) (k : ℕ) : ℝ :=
  rfftMag f k ^ 2 / 512

/-- `high_freq_mel = 2595 * log10(1 + (16000/2) / 700)` (line 144). -/
noncomputable def highFreqMel : ℝ :=
  2595 * Real.logb 10 (1 + 8000 / 700)

/-- `mel_points = np.linspace(0, high_freq_mel, 42)` entry `m` (line 145). -/
noncomputable def melPoint (m : ℕ) : ℝ :=
  highFreqMel * m / 41

/-- `hz_points = 700 * (10 ** (mel_points / 2595) - 1)` (line 146). -/
noncomputable def hzPoint (m : ℕ) : ℝ :=
  700 * ((10 : ℝ) ^ (melPoint m / 2595) - 1)

/-- `bin = np.floor((512 + 1) * hz_points / 16000)` (line 147). -/
noncomputable def melBin (m : ℕ) : ℤ :=
  ⌊(513 : ℝ) * hzPoint m / 16000⌋

/-- Triangular mel filter entry: row `m` (0-based, `m < 40`), FFT bin `k`
(lines 149-159): rising edge on `[bin m, bin (m+1))`, falling edge on
`[bin (m+1), bin (m+2))`, zero elsewhere (the `for k in range(f_m_minus,
f_m_plus)` loop with the `k < f_m` split). -/
noncomputable def fbankEntry (m k : ℕ) : ℝ :=
  if (melBin m : ℝ) ≤ (k : ℝ) ∧ (k : ℝ) < (melBin (m + 1) : ℝ) then
    ((k : ℝ) - (melBin m : ℝ)) / ((melBin (m + 1) : ℝ) - (melBin m : ℝ))
  else if (melBin (m + 1) : ℝ) ≤ (k : ℝ) ∧ (k : ℝ) < (melBin (m + 2) : ℝ) then
    ((melBin (m + 2) : ℝ) - (k : ℝ)) / ((melBin (m + 2) : ℝ) - (melBin (m + 1) : ℝ))
  else 0

/-- `filter_banks = np.dot(pow_frames, fbank.T)` (line 162), channel `m` of
one frame. -/
noncomputable def filterBankVal (f : List ℝ) (m : ℕ) : ℝ :=
  ∑ k : Fin 257, powerSpec f k.val * fbankEntry m k.val

/-- `np.finfo(float).eps`. -/
noncomputable def epsFloat : ℝ := (2 : ℝ) ^ (-52 : ℤ)

/-- Lines 163-164: replace exact zeros by machine epsilon, then
`20 * log10`. -/
noncomputable def logMel (f : List ℝ) (m : ℕ) : ℝ :=
  20 * Real.logb 10 (if filterBankVal f m = 0 then epsFloat else filterBankVal f m)

/-- `scipy.fft.dct(type=2, norm=ortho)` coefficient `j` of a 40-point row. -/
noncomputable def dctOrtho (v : ℕ → ℝ) (j : ℕ) : ℝ :=
  (if j = 0 then Real.sqrt (1 / 160) else Real.sqrt (1 / 80)) *
    (2 * ∑ k : Fin 40, v k.val * Real.cos (Real.pi * j * (2 * k.val + 1) / 80))

/-- One MFCC row (line 167): the DCT of the 40 log-mel channels of the
windowed frame, sliced `[:, 1 : n_mfcc + 1]` with `n_mfcc = 13`, so the 13
coefficients 1..13. -/
noncomputable def mfccOfFrame (f : List ℝ) : List ℝ :=
  ((List.ofFn fun j : Fin 40 => dctOrtho (logMel (windowedFrame f)) j.val).drop 1).take 13

/-- `extract_mfcc(audio, 16000)` (lines 102-169): the per-frame MFCC matrix. -/
noncomputable def extract_mfcc (audio : List ℝ) : List (List ℝ) :=
  (signalFrames (preEmphasis audio)).map mfccOfFrame

/-- Python `max`/`min` folds over a non-empty real list (`0` is a junk value
for the empty list, behind the non-empty guard in the callers). -/
noncomputable def listMaxR : List ℝ → ℝ
  | [] => 0
  | x :: xs => xs.foldl max x

/-- Fold for `np.min`. -/
noncomputable def listMinR : List ℝ → ℝ
  | [] => 0
  | x :: xs => xs.foldl min x

/-- Column `j` of the MFCC matrix (the `axis=0` reductions act per
coefficient). -/
noncomputable def colVals (m : List (List ℝ)) (j : ℕ) : List ℝ :=
  m.map fun r => r.getD j 0

/-- `np.mean(mfcc_features, axis=0)` entry `j`. -/
noncomputable def colMean (m : List (List ℝ)) (j : ℕ) : ℝ :=
  (colVals m j).sum / (m.length : ℝ)

/-- `np.std(mfcc_features, axis=0)` entry `j` (population standard
deviation). -/
noncomputable def colStd (m : List (List ℝ)) (j : ℕ) : ℝ :=
  Real.sqrt ((((colVals m j).map fun x => (x - colMean m j) ^ 2).sum) / (m.length : ℝ))

/-- Lines 64-74: the embedding before padding is mean, std, min and max of
each of the 13 coefficients across frames, concatenated - 52 values. -/
noncomputable def statsVector (m : List (List ℝ)) : List ℝ :=
  (List.ofFn fun j : Fin 13 => colMean m j.val) ++
  (List.ofFn fun j : Fin 13 => colStd m j.val) ++
  (List.ofFn fun j : Fin 13 => listMinR (colVals m j.val)) ++
  (List.ofFn fun j : Fin 13 => listMaxR (colVals m j.val))

/-- Lines 76-83: pad with zeros (or truncate) to exactly 120 entries. -/
noncomputable def padTo120 (l : List ℝ) : List ℝ :=
  if l.length < 120 then l ++ List.replicate (120 - l.length) 0 else l.take 120

/-- Sum of squares; `np.linalg.norm` is its square root. -/
noncomputable def sumSq (v : List ℝ) : ℝ :=
  (v.map fun x => x ^ 2).sum

/-- Lines 85-89: divide by the L2 norm when it is positive, else return the
vector unchanged. -/
noncomputable def l2normalize (v : List ℝ) : List ℝ :=
  if 0 < Real.sqrt (sumSq v) then v.map fun x => x / Real.sqrt (sumSq v) else v

/-- Lines 48-50: `audio = audio / np.abs(audio).max()` when `audio.max() > 0`. -/
noncomputable def amplitudeNormalize (a : List ℝ) : List ℝ :=
  if 0 < listMaxR a then a.map fun x => x / listMaxR (a.map fun y => |y|) else a

/-- The embedding value produced on the non-raising path of
`extract_speaker_embedding` (lines 48-95). -/
noncomputable def theEmbedding (audio : List ℝ) : List ℝ :=
  l2normalize (padTo120 (statsVector (extract_mfcc (amplitudeNormalize audio))))

/-- `extract_speaker_embedding` (lines 36-99) on the decoded 16 kHz mono
signal: raises (as a wrapped `ValueError`) only for the empty signal and for a
zero frame count; otherwise returns the embedding. -/
noncomputable def extract_speaker_embedding (audio : List ℝ) : Except String (List ℝ) :=
  match audio with
  | [] => Except.error "max of an empty array raises"
  | _ :: _ =>
      if numFrames audio.length = 0 then
        Except.error "zero-size array to reduction operation"
      else Except.ok (theEmbedding audio)

/-! ### Helper lemmas: maxima, sorting, top-K mean -/

lemma foldl_max_eq_or_mem (xs : List ℚ) (x : ℚ) :
    xs.foldl max x = x ∨ xs.foldl max x ∈ xs := by
  induction xs generalizing x with
  | nil => left; rfl
  | cons y ys ih =>
    rw [List.foldl_cons]
    rcases ih (max x y) with h | h
    · rw [h]
      rcases max_choice x y with h2 | h2
      · left; exact h2
      · right; rw [h2]; exact List.mem_cons_self y ys
    · right; exact List.mem_cons_of_mem y h

lemma le_foldl_max (xs : List ℚ) (x : ℚ) :
    x ≤ xs.foldl max x ∧ ∀ y ∈ xs, y ≤ xs.foldl max x := by
  induction xs generalizing x with
  | nil => exact ⟨le_refl x, by simp⟩
  | cons z zs ih =>
    rw [List.foldl_cons]
    refine ⟨le_trans (le_max_left x z) (ih (max x z)).1, ?_⟩
    intro y hy
    rcases List.mem_cons.mp hy with rfl | hy
    · exact le_trans (le_max_right x y) (ih (max x y)).1
    · exact (ih (max x z)).2 y hy

lemma listMax_mem {l : List ℚ} (h : l ≠ []) : listMax l ∈ l := by
  match l with
  | x :: xs =>
    rw [listMax]
    rcases foldl_max_eq_or_mem xs x with h2 | h2
    · rw [h2]; exact List.mem_cons_self x xs
    · exact List.mem_cons_of_mem x h2

lemma le_listMax {a : ℚ} {l : List ℚ} (h : a ∈ l) : a ≤ listMax l := by
  match l with
  | x :: xs =>
    rw [listMax]
    rcases List.mem_cons.mp h with rfl | h2
    · exact (le_foldl_max xs a).1
    · exact (le_foldl_max xs x).2 a h2

lemma mem_insertDesc {a x : ℚ} {l : List ℚ} :
    a ∈ insertDesc x l ↔ a = x ∨ a ∈ l := by
  induction l with
  | nil => simp [insertDesc]
  | cons y ys ih =>
    rw [insertDesc]
    split
    · simp [List.mem_cons]
    · simp only [List.mem_cons, ih]
      tauto

lemma mem_sortDesc {a : ℚ} {l : List ℚ} : a ∈ sortDesc l ↔ a ∈ l := by
  induction l with
  | nil => simp [sortDesc]
  | cons x xs ih =>
    rw [sortDesc, mem_insertDesc, List.mem_cons, ih]

lemma length_insertDesc (x : ℚ) (l : List ℚ) :
    (insertDesc x l).length = l.length + 1 := by
  induction l with
  | nil => rfl
  | cons y ys ih =>
    rw [insertDesc]
    split
    · simp
    · simp [ih]

lemma length_sortDesc (l : List ℚ) : (sortDesc l).length = l.length := by
  induction l with
  | nil => rfl
  | cons x xs ih => rw [sortDesc, length_insertDesc, ih]; rfl

lemma topKList_length (sims : List ℚ) :
    (topKList sims).length = min 2 sims.length := by
  rw [topKList, List.length_take, length_sortDesc]
  omega

lemma topKList_subset {a : ℚ} {sims : List ℚ} (h : a ∈ topKList sims) : a ∈ sims :=
  mem_sortDesc.mp (List.mem_of_mem_take h)

lemma topKMean_bounds {sims : List ℚ} (h1 : sims ≠ [])
    (h2 : ∀ s ∈ sims, 0 ≤ s ∧ s ≤ 1) :
    0 ≤ (topKList sims).sum / ((topKList sims).length : ℚ) ∧
      (topKList sims).sum / ((topKList sims).length : ℚ) ≤ 1 := by
  have hlen : (topKList sims).length = min 2 sims.length := topKList_length sims
  have hpos : 0 < sims.length := List.length_pos.mpr h1
  have hkpos : 0 < ((topKList sims).length : ℚ) := by
    rw [hlen]
    have : 0 < min 2 sims.length := by omega
    exact_mod_cast this
  have hsum0 : 0 ≤ (topKList sims).sum :=
    List.sum_nonneg fun x hx => (h2 x (topKList_subset hx)).1
  have hsum1 : (topKList sims).sum ≤ ((topKList sims).length : ℚ) := by
    have := List.sum_le_card_nsmul (topKList sims) 1
      (fun x hx => (h2 x (topKList_subset hx)).2)
    simpa using this
  exact ⟨div_nonneg hsum0 (le_of_lt hkpos), (div_le_one hkpos).mpr hsum1⟩

lemma listMax_bounds {sims : List ℚ} (h1 : sims ≠ [])
    (h2 : ∀ s ∈ sims, 0 ≤ s ∧ s ≤ 1) :
    0 ≤ listMax sims ∧ listMax sims ≤ 1 :=
  h2 (listMax sims) (listMax_mem h1)

lemma verify_speaker_ok {sims : List ℚ} (ot ut : ℚ) (h1 : sims ≠ [])
    (h2 : ∀ s ∈ sims, 0 ≤ s ∧ s ≤ 1) :
    verify_speaker sims ot ut = Except.ok
      ⟨(apply_decision_v1 (listMax sims) ot ut).1,
       (apply_decision_v1 (listMax sims) ot ut).2,
       listMax sims,
       (topKList sims).sum / ((topKList sims).length : ℚ),
       sims⟩ := by
  obtain ⟨s, rest, rfl⟩ := List.exists_cons_of_ne_nil h1
  rw [verify_speaker, mkVerificationDecision,
    if_pos (listMax_bounds h1 h2), if_pos (topKMean_bounds h1 h2)]

/-! ### Claims C1 and C10 -/

/-- C1: for every non-empty similarity list and thresholds, the internal state
is `OWNER` when the maximum similarity is at least the owner threshold, else
`UNCERTAIN` when it is at least the uncertain threshold, else `OTHER`; the
user-facing decision of the produced `VerificationDecision` is `OWNER` exactly
when the internal state is `OWNER`, and both `UNCERTAIN` and `OTHER` internal
states give the user-facing `OTHER`. -/
theorem C1_decision_policy (sims : List ℚ) (ot ut : ℚ) (h1 : sims ≠ [])
    (h2 : ∀ s ∈ sims, 0 ≤ s ∧ s ≤ 1) :
    (verify_speaker sims ot ut).map (fun d => (d.decision, d.internalState))
        = Except.ok (apply_decision_v1 (listMax sims) ot ut) ∧
    ((apply_decision_v1 (listMax sims) ot ut).2 = InternalState.OWNER ↔
        ot ≤ listMax sims) ∧
    ((apply_decision_v1 (listMax sims) ot ut).2 = InternalState.UNCERTAIN ↔
        (listMax sims < ot ∧ ut ≤ listMax sims)) ∧
    ((apply_decision_v1 (listMax sims) ot ut).2 = InternalState.OTHER ↔
        (listMax sims < ot ∧ listMax sims < ut)) ∧
    ((apply_decision_v1 (listMax sims) ot ut).1 = UserDecision.OWNER ↔
        (apply_decision_v1 (listMax sims) ot ut).2 = InternalState.OWNER) ∧
    ((apply_decision_v1 (listMax sims) ot ut).2 = InternalState.UNCERTAIN ∨
        (apply_decision_v1 (listMax sims) ot ut).2 = InternalState.OTHER →
      (apply_decision_v1 (listMax sims) ot ut).1 = UserDecision.OTHER) := by
  refine ⟨by rw [verify_speaker_ok ot ut h1 h2]; rfl, ?_⟩
  by_cases hot : ot ≤ listMax sims
  · simp [apply_decision_v1, hot, not_lt.mpr hot]
  · by_cases hut : ut ≤ listMax sims
    · simp [apply_decision_v1, hot, hut, not_le.mp hot, not_lt.mpr hut]
    · simp [apply_decision_v1, hot, hut, not_le.mp hot, not_le.mp hut]

/-- Witness for C1 at the spec example: similarities `[0.9, 0.4, 0.3]` with
thresholds `0.75` and `0.6`. -/
theorem C1_decision_policy_witness :
    ((9/10 : ℚ) :: [4/10, 3/10] ≠ []) ∧
    ((verify_speaker [9/10, 4/10, 3/10] (3/4) (3/5)).map
        (fun d => (d.decision, d.internalState))
        = Except.ok (apply_decision_v1 (listMax [9/10, 4/10, 3/10]) (3/4) (3/5)) ∧
      ((apply_decision_v1 (listMax [9/10, 4/10, 3/10]) (3/4) (3/5)).2 = InternalState.OWNER ↔
          (3/4 : ℚ) ≤ listMax [9/10, 4/10, 3/10]) ∧
      ((apply_decision_v1 (listMax [9/10, 4/10, 3/10]) (3/4) (3/5)).2 = InternalState.UNCERTAIN ↔
          (listMax [9/10, 4/10, 3/10] < 3/4 ∧ (3/5 : ℚ) ≤ listMax [9/10, 4/10, 3/10])) ∧
      ((apply_decision_v1 (listMax [9/10, 4/10, 3/10]) (3/4) (3/5)).2 = InternalState.OTHER ↔
          (listMax [9/10, 4/10, 3/10] < 3/4 ∧ listMax [9/10, 4/10, 3/10] < 3/5)) ∧
      ((apply_decision_v1 (listMax [9/10, 4/10, 3/10]) (3/4) (3/5)).1 = UserDecision.OWNER ↔
          (apply_decision_v1 (listMax [9/10, 4/10, 3/10]) (3/4) (3/5)).2 = InternalState.OWNER) ∧
      ((apply_decision_v1 (listMax [9/10, 4/10, 3/10]) (3/4) (3/5)).2 = InternalState.UNCERTAIN ∨
          (apply_decision_v1 (listMax [9/10, 4/10, 3/10]) (3/4) (3/5)).2 = InternalState.OTHER →
        (apply_decision_v1 (listMax [9/10, 4/10, 3/10]) (3/4) (3/5)).1 = UserDecision.OTHER)) :=
  ⟨by decide, C1_decision_policy [9/10, 4/10, 3/10] (3/4) (3/5) (by decide)
    (by intro s hs; fin_cases hs <;> norm_num)⟩

/-- C10: when every similarity is negative, the maximum is negative, so the
pydantic validation of `VerificationDecision.maxSimilarity` (which requires a
value in the unit interval) raises and `verify_speaker` errors instead of
returning an `OTHER` decision. -/
theorem C10_negative_similarity_error (sims : List ℚ) (ot ut : ℚ)
    (h1 : sims ≠ []) (h2 : ∀ s ∈ sims, s < 0) :
    verify_speaker sims ot ut = Except.error "maxSimilarity must be in the range 0 to 1" := by
  obtain ⟨s, rest, rfl⟩ := List.exists_cons_of_ne_nil h1
  have hneg : listMax (s :: rest) < 0 := h2 _ (listMax_mem h1)
  rw [verify_speaker, mkVerificationDecision, if_neg]
  intro hc
  exact absurd hc.1 (not_le.mpr hneg)

/-- Witness for C10 at similarities `[-1/2, -9/10]`. -/
theorem C10_negative_similarity_error_witness :
    ((-1/2 : ℚ) :: [-9/10] ≠ []) ∧ (∀ s ∈ [(-1/2 : ℚ), -9/10], s < 0) ∧
    verify_speaker [-1/2, -9/10] (3/4) (3/5)
        = Except.error "maxSimilarity must be in the range 0 to 1" :=
  ⟨by decide, by intro s hs; fin_cases hs <;> norm_num,
    C10_negative_similarity_error [-1/2, -9/10] (3/4) (3/5) (by decide)
      (by intro s hs; fin_cases hs <;> norm_num)⟩

/-! ### Claim C5 -/

/-- C5 counterexample: the configuration `owner=0.3, uncertain=0.8` coming
from the persisted (Firestore) leg of the resolution chain is accepted as-is,
although its owner threshold is below its uncertain threshold. -/
theorem C5_invariant_counterexample :
    get_threshold_config (some ("dev", 3/10, 4/5)) none none "dev"
        = Except.ok ⟨"dev", 3/10, 4/5⟩ ∧
    (3/10 : ℚ) < 4/5 := by
  constructor
  · rw [get_threshold_config, mkThresholdConfig]
    norm_num
  · norm_num

/-- C5 (amended): every accepted `ThresholdConfig` satisfies only the per-field
bounds (each threshold in the unit interval); the relation between the two
thresholds is not validated.  The built-in default fallback of the resolution
chain does satisfy `uncertain ≤ owner` (0.6 versus 0.75). -/
theorem C5_threshold_bounds (env : String) (ot ut : ℚ) (c : ThresholdConfig)
    (h : mkThresholdConfig env ot ut = Except.ok c) :
    (0 ≤ c.ownerThreshold ∧ c.ownerThreshold ≤ 1 ∧
      0 ≤ c.uncertainThreshold ∧ c.uncertainThreshold ≤ 1) ∧
    get_threshold_config none none none env
        = Except.ok ⟨env, defaultOwnerThreshold, defaultUncertainThreshold⟩ ∧
    defaultUncertainThreshold ≤ defaultOwnerThreshold := by
  rw [mkThresholdConfig] at h
  split at h
  case isFalse => exact absurd h (by simp)
  case isTrue henv =>
    split at h
    case isFalse => exact absurd h (by simp)
    case isTrue hot =>
      split at h
      case isFalse => exact absurd h (by simp)
      case isTrue hut =>
        have hc : c = ⟨env, ot, ut⟩ := by
          cases h
          rfl
        subst hc
        refine ⟨⟨hot.1, hot.2, hut.1, hut.2⟩, ?_, by norm_num [defaultOwnerThreshold, defaultUncertainThreshold]⟩
        rw [get_threshold_config, mkThresholdConfig, if_pos henv]
        norm_num [defaultOwnerThreshold, defaultUncertainThreshold]

/-- Witness for C5 at a concrete accepted configuration. -/
theorem C5_threshold_bounds_witness :
    (mkThresholdConfig "dev" (1/2) (1/2)
        = Except.ok ⟨"dev", 1/2, 1/2⟩) ∧
    ((0 ≤ (ThresholdConfig.mk "dev" (1/2) (1/2)).ownerThreshold ∧
        (ThresholdConfig.mk "dev" (1/2) (1/2)).ownerThreshold ≤ 1 ∧
        0 ≤ (ThresholdConfig.mk "dev" (1/2) (1/2)).uncertainThreshold ∧
        (ThresholdConfig.mk "dev" (1/2) (1/2)).uncertainThreshold ≤ 1) ∧
      get_threshold_config none none none "dev"
          = Except.ok ⟨"dev", defaultOwnerThreshold, defaultUncertainThreshold⟩ ∧
      defaultUncertainThreshold ≤ defaultOwnerThreshold) :=
  ⟨by norm_num [mkThresholdConfig],
    C5_threshold_bounds "dev" (1/2) (1/2) ⟨"dev", 1/2, 1/2⟩ (by norm_num [mkThresholdConfig])⟩

/-! ### Claim C6 -/

lemma mem_ite_single {a b : String} {c : Prop} [Decidable c] :
    a ∈ (if c then [b] else []) ↔ c ∧ a = b := by
  split
  case isTrue h => simp [h]
  case isFalse h => simp [h]

lemma silence_ratio_of_no_nonsilence (totalMs : ℕ) :
    calculate_silence_ratio totalMs [] = 1 := by
  rw [calculate_silence_ratio]
  split
  · rfl
  · rfl

lemma validate_reasons (m : AudioMetrics) :
    (validate_audio_quality m).reasons = qualityReasons m := by
  rw [validate_audio_quality]
  split
  · rfl
  · rfl

/-- C6: every check of the audio quality validator is evaluated independently
and every failing check contributes its reason code (membership in the reasons
list is equivalent to that single check failing, for each of the six codes);
the status is `PASS` exactly when the reasons list is empty; and an all-zero
clip of adequate duration (no non-silent interval is detected, so the silence
ratio is 1, and the RMS is 0) fails with both `TOO_SILENT` and `TOO_QUIET`
collected. -/
theorem C6_quality_checks (m : AudioMetrics) (totalMs : ℕ) (h : 4000 ≤ totalMs) :
    ((validate_audio_quality m).status = "PASS" ↔
        (validate_audio_quality m).reasons = []) ∧
    (validate_audio_quality m).reasons = qualityReasons m ∧
    ("TOO_SHORT" ∈ qualityReasons m ↔ (m.durationMs : ℚ) / 1000 < minDurationSeconds) ∧
    ("TOO_SILENT" ∈ qualityReasons m ↔ maxSilenceRatio < m.silenceRatio) ∧
    ("TOO_QUIET" ∈ qualityReasons m ↔ m.rms < minRmsThreshold) ∧
    ("TOO_MUCH_CLIPPING" ∈ qualityReasons m ↔ maxClippingRatioQ < m.clippingRatio) ∧
    ("INVALID_SAMPLE_RATE" ∈ qualityReasons m ↔ 1000 < |m.sampleRate - 16000|) ∧
    ("INVALID_CHANNELS" ∈ qualityReasons m ↔ m.channels ≠ 1) ∧
    (qualityReasons ⟨totalMs, calculate_silence_ratio totalMs [], 0, 0, 16000, 1⟩
        = ["TOO_SILENT", "TOO_QUIET"] ∧
      (validate_audio_quality
        ⟨totalMs, calculate_silence_ratio totalMs [], 0, 0, 16000, 1⟩).status = "FAIL") := by
  have hmem : ∀ m2 : AudioMetrics,
      ("TOO_SHORT" ∈ qualityReasons m2 ↔ (m2.durationMs : ℚ) / 1000 < minDurationSeconds) ∧
      ("TOO_SILENT" ∈ qualityReasons m2 ↔ maxSilenceRatio < m2.silenceRatio) ∧
      ("TOO_QUIET" ∈ qualityReasons m2 ↔ m2.rms < minRmsThreshold) ∧
      ("TOO_MUCH_CLIPPING" ∈ qualityReasons m2 ↔ maxClippingRatioQ < m2.clippingRatio) ∧
      ("INVALID_SAMPLE_RATE" ∈ qualityReasons m2 ↔ 1000 < |m2.sampleRate - 16000|) ∧
      ("INVALID_CHANNELS" ∈ qualityReasons m2 ↔ m2.channels ≠ 1) := by
    intro m2
    simp only [qualityReasons, List.mem_append, mem_ite_single]
    refine ⟨?_, ?_, ?_, ?_, ?_, ?_⟩ <;> simp
  have hsilent : calculate_silence_ratio totalMs [] = 1 :=
    silence_ratio_of_no_nonsilence totalMs
  have hdur : ¬ ((totalMs : ℚ) / 1000 < minDurationSeconds) := by
    rw [not_lt, minDurationSeconds, le_div_iff₀ (by norm_num)]
    have h4 : ((4000 : ℕ) : ℚ) ≤ (totalMs : ℚ) := by exact_mod_cast h
    calc (4 : ℚ) * 1000 = ((4000 : ℕ) : ℚ) := by norm_num
      _ ≤ (totalMs : ℚ) := h4
  have hexact : qualityReasons
      ⟨totalMs, calculate_silence_ratio totalMs [], 0, 0, 16000, 1⟩
      = ["TOO_SILENT", "TOO_QUIET"] := by
    rw [qualityReasons]
    rw [if_neg hdur]
    rw [if_pos (by rw [hsilent]; norm_num [maxSilenceRatio])]
    rw [if_pos (by norm_num [minRmsThreshold])]
    rw [if_neg (by norm_num [maxClippingRatioQ])]
    rw [if_neg (by norm_num)]
    rw [if_neg (by norm_num)]
    rfl
  refine ⟨?_, validate_reasons m, (hmem m).1, (hmem m).2.1, (hmem m).2.2.1,
    (hmem m).2.2.2.1, (hmem m).2.2.2.2.1, (hmem m).2.2.2.2.2, hexact, ?_⟩
  · rw [validate_audio_quality]
    split
    case isTrue h2 => simp [h2]
    case isFalse h2 => simp [h2]
  · rw [validate_audio_quality, if_neg]
    rw [hexact]
    simp

/-- Witness for C6 at a concrete metrics record and a 10-second silent clip. -/
theorem C6_quality_checks_witness :
    (4000 ≤ 10000) ∧
    (((validate_audio_quality ⟨10000, 0, 600, 0, 16000, 1⟩).status = "PASS" ↔
        (validate_audio_quality ⟨10000, 0, 600, 0, 16000, 1⟩).reasons = []) ∧
    (validate_audio_quality ⟨10000, 0, 600, 0, 16000, 1⟩).reasons
        = qualityReasons ⟨10000, 0, 600, 0, 16000, 1⟩ ∧
    ("TOO_SHORT" ∈ qualityReasons ⟨10000, 0, 600, 0, 16000, 1⟩ ↔
        ((10000 : ℕ) : ℚ) / 1000 < minDurationSeconds) ∧
    ("TOO_SILENT" ∈ qualityReasons ⟨10000, 0, 600, 0, 16000, 1⟩ ↔
        maxSilenceRatio < (0 : ℚ)) ∧
    ("TOO_QUIET" ∈ qualityReasons ⟨10000, 0, 600, 0, 16000, 1⟩ ↔
        (600 : ℚ) < minRmsThreshold) ∧
    ("TOO_MUCH_CLIPPING" ∈ qualityReasons ⟨10000, 0, 600, 0, 16000, 1⟩ ↔
        maxClippingRatioQ < (0 : ℚ)) ∧
    ("INVALID_SAMPLE_RATE" ∈ qualityReasons ⟨10000, 0, 600, 0, 16000, 1⟩ ↔
        1000 < |(16000 : ℤ) - 16000|) ∧
    ("INVALID_CHANNELS" ∈ qualityReasons ⟨10000, 0, 600, 0, 16000, 1⟩ ↔
        (1 : ℕ) ≠ 1) ∧
    (qualityReasons ⟨10000, calculate_silence_ratio 10000 [], 0, 0, 16000, 1⟩
        = ["TOO_SILENT", "TOO_QUIET"] ∧
      (validate_audio_quality
        ⟨10000, calculate_silence_ratio 10000 [], 0, 0, 16000, 1⟩).status = "FAIL")) :=
  ⟨by decide, C6_quality_checks ⟨10000, 0, 600, 0, 16000, 1⟩ 10000 (by decide)⟩

/-! ### Claim C9 -/

/-- C9: with matching chunk and decision lists, reconstruction returns the
concatenation, in original chunk order (the qualifying chunks form a sublist),
of exactly the chunks whose decision qualifies (`OWNER`, plus `UNCERTAIN` when
`include_uncertain`), whose total duration is the sum of the qualifying
durations; and when no chunk qualifies it returns the 100 ms silence
placeholder, never an empty buffer. -/
theorem C9_reconstruct (chunks : List (List ℤ)) (ds : List ChunkDecision)
    (iu : Bool) (h : chunks.length = ds.length) :
    reconstruct_audio_from_chunks chunks ds iu
        = Except.ok (if included_chunks chunks ds iu = [] then List.replicate 100 0
            else (included_chunks chunks ds iu).flatten) ∧
    ((included_chunks chunks ds iu).flatten).length
        = ((included_chunks chunks ds iu).map List.length).sum ∧
    List.Sublist (included_chunks chunks ds iu) chunks ∧
    (List.replicate 100 (0 : ℤ)).length = 100 := by
  refine ⟨?_, ?_, ?_, by simp⟩
  · rw [reconstruct_audio_from_chunks, if_neg (by omega)]
    split
    case isTrue h2 => rfl
    case isFalse h2 => rfl
  · exact List.length_flatten _
  · have hz : (chunks.zip ds).map Prod.fst = chunks :=
      List.map_fst_zip chunks ds (le_of_eq h)
    have hsub : List.Sublist (included_chunks chunks ds iu)
        ((chunks.zip ds).map Prod.fst) :=
      List.Sublist.map Prod.fst (List.filter_sublist _)
    rw [hz] at hsub
    exact hsub

/-- Witness for C9 at the spec example: four chunks with decisions
`[OWNER, OTHER, OWNER, OWNER]` and `include_uncertain = false`. -/
theorem C9_reconstruct_witness :
    ([List.replicate 5 (1 : ℤ), List.replicate 7 2, List.replicate 3 3,
        List.replicate 4 4].length
      = [ChunkDecision.OWNER, ChunkDecision.OTHER, ChunkDecision.OWNER,
          ChunkDecision.OWNER].length) ∧
    (reconstruct_audio_from_chunks
        [List.replicate 5 (1 : ℤ), List.replicate 7 2, List.replicate 3 3,
          List.replicate 4 4]
        [ChunkDecision.OWNER, ChunkDecision.OTHER, ChunkDecision.OWNER,
          ChunkDecision.OWNER] false
        = Except.ok (if included_chunks
              [List.replicate 5 (1 : ℤ), List.replicate 7 2, List.replicate 3 3,
                List.replicate 4 4]
              [ChunkDecision.OWNER, ChunkDecision.OTHER, ChunkDecision.OWNER,
                ChunkDecision.OWNER] false = [] then List.replicate 100 0
            else (included_chunks
              [List.replicate 5 (1 : ℤ), List.replicate 7 2, List.replicate 3 3,
                List.replicate 4 4]
              [ChunkDecision.OWNER, ChunkDecision.OTHER, ChunkDecision.OWNER,
                ChunkDecision.OWNER] false).flatten) ∧
      ((included_chunks
          [List.replicate 5 (1 : ℤ), List.replicate 7 2, List.replicate 3 3,
            List.replicate 4 4]
          [ChunkDecision.OWNER, ChunkDecision.OTHER, ChunkDecision.OWNER,
            ChunkDecision.OWNER] false).flatten).length
        = ((included_chunks
            [List.replicate 5 (1 : ℤ), List.replicate 7 2, List.replicate 3 3,
              List.replicate 4 4]
            [ChunkDecision.OWNER, ChunkDecision.OTHER, ChunkDecision.OWNER,
              ChunkDecision.OWNER] false).map List.length).sum ∧
      List.Sublist (included_chunks
          [List.replicate 5 (1 : ℤ), List.replicate 7 2, List.replicate 3 3,
            List.replicate 4 4]
          [ChunkDecision.OWNER, ChunkDecision.OTHER, ChunkDecision.OWNER,
            ChunkDecision.OWNER] false)
        [List.replicate 5 (1 : ℤ), List.replicate 7 2, List.replicate 3 3,
          List.replicate 4 4] ∧
      (List.replicate 100 (0 : ℤ)).length = 100) :=
  ⟨by decide, C9_reconstruct
    [List.replicate 5 (1 : ℤ), List.replicate 7 2, List.replicate 3 3,
      List.replicate 4 4]
    [ChunkDecision.OWNER, ChunkDecision.OTHER, ChunkDecision.OWNER,
      ChunkDecision.OWNER] false (by decide)⟩

/-! ### Chunk counting: claims C3 and C8 -/

/-- Closed form of the number of chunks the loop emits from a remaining span
of `r` milliseconds, ignoring the safety cap: none under one second (the
trailing sliver is dropped), else one chunk per 11500 ms advance, with the
last chunk covering 1000 to 12000 ms. -/
def remCount (r : ℕ) : ℕ :=
  if r < 1000 then 0 else (r - 1000) / 11500 + 1

lemma remCount_zero {r : ℕ} (h : r < 1000) : remCount r = 0 := by
  rw [remCount, if_pos h]

lemma remCount_pos {r : ℕ} (h : 1000 ≤ r) : 1 ≤ remCount r := by
  rw [remCount, if_neg (by omega)]
  omega

lemma remCount_one {r : ℕ} (h1 : 1000 ≤ r) (h2 : r < 12500) : remCount r = 1 := by
  rw [remCount, if_neg (by omega)]
  have hd : (r - 1000) / 11500 = 0 := Nat.div_eq_of_lt (by omega)
  omega

lemma remCount_step {r : ℕ} (h : 12500 ≤ r) :
    remCount (r - 11500) = remCount r - 1 ∧ 2 ≤ remCount r := by
  have he1 : remCount r = (r - 12500) / 11500 + 2 := by
    rw [remCount, if_neg (by omega)]
    have he : r - 1000 = (r - 12500) + 11500 := by omega
    rw [he, Nat.add_div_right _ (by norm_num)]
  have he2 : remCount (r - 11500) = (r - 12500) / 11500 + 1 := by
    rw [remCount, if_neg (by omega)]
    have he : r - 11500 - 1000 = r - 12500 := by omega
    rw [he]
  omega

lemma splitLoop_length_aux :
    ∀ (fuel totalMs cur idx : ℕ), totalMs - cur ≤ fuel → idx ≤ 1000 →
      (splitLoop totalMs cur idx).length = min (remCount (totalMs - cur)) (1001 - idx) := by
  intro fuel
  induction fuel with
  | zero =>
    intro totalMs cur idx hf _
    rw [splitLoop.eq_def, if_neg (by omega)]
    have h0 : totalMs - cur = 0 := by omega
    rw [h0, remCount_zero (by omega)]
    simp
  | succ n ih =>
    intro totalMs cur idx hf hidx
    rw [splitLoop.eq_def]
    by_cases h1 : cur < totalMs
    · rw [if_pos h1]
      by_cases h2 : min (cur + chunkDurationMs) totalMs - cur < 1000
      · rw [if_pos h2]
        have hr : totalMs - cur < 1000 := by
          simp only [chunkDurationMs] at h2
          omega
        rw [remCount_zero hr]
        simp
      · rw [if_neg h2]
        have hRge : 1000 ≤ totalMs - cur := by
          simp only [chunkDurationMs] at h2
          omega
        by_cases h3 : 1000 < idx + 1
        · rw [if_pos h3]
          have := remCount_pos hRge
          simp only [List.length_cons, List.length_nil]
          omega
        · rw [if_neg h3]
          have hrec := ih totalMs (min (cur + chunkDurationMs) totalMs - overlapMs) (idx + 1)
            (by simp only [chunkDurationMs, overlapMs]; omega) (by omega)
          simp only [List.length_cons, hrec]
          rcases Nat.lt_or_ge (totalMs - cur) 12500 with hR | hR
          · have hrem1 : remCount (totalMs - cur) = 1 := remCount_one hRge hR
            have hrem0 : remCount
                (totalMs - (min (cur + chunkDurationMs) totalMs - overlapMs)) = 0 := by
              apply remCount_zero
              simp only [chunkDurationMs, overlapMs]
              omega
            rw [hrem0, hrem1]
            omega
          · have hstep := remCount_step hR
            have harg : totalMs - (min (cur + chunkDurationMs) totalMs - overlapMs)
                = (totalMs - cur) - 11500 := by
              simp only [chunkDurationMs, overlapMs]
              omega
            rw [harg, hstep.1]
            have h4 := hstep.2
            omega
    · rw [if_neg h1]
      have h0 : totalMs - cur = 0 := by omega
      rw [h0, remCount_zero (by omega)]
      simp

lemma splitLoop_getLast_aux :
    ∀ (fuel totalMs cur idx : ℕ), totalMs - cur ≤ fuel → idx ≤ 1000 →
      1 ≤ remCount (totalMs - cur) → idx + remCount (totalMs - cur) ≤ 1001 →
      (splitLoop totalMs cur idx).getLast?.map AudioChunk.endMs
        = some (min (cur + 11500 * (remCount (totalMs - cur) - 1) + 12000) totalMs) := by
  intro fuel
  induction fuel with
  | zero =>
    intro totalMs cur idx hf _ hpos _
    have h0 : totalMs - cur = 0 := by omega
    rw [h0, remCount_zero (by omega)] at hpos
    omega
  | succ n ih =>
    intro totalMs cur idx hf hidx hpos hcap
    have h1 : cur < totalMs := by
      by_contra hc
      have h0 : totalMs - cur = 0 := by omega
      rw [h0, remCount_zero (by omega)] at hpos
      omega
    have hRge : 1000 ≤ totalMs - cur := by
      by_contra hc
      rw [remCount_zero (by omega)] at hpos
      omega
    have h2 : ¬ (min (cur + chunkDurationMs) totalMs - cur < 1000) := by
      simp only [chunkDurationMs]
      omega
    rw [splitLoop.eq_def, if_pos h1, if_neg h2]
    rcases Nat.lt_or_ge (totalMs - cur) 12500 with hR | hR
    · have hrem1 : remCount (totalMs - cur) = 1 := remCount_one hRge hR
      have hend : min (cur + chunkDurationMs) totalMs
          = min (cur + 11500 * (remCount (totalMs - cur) - 1) + 12000) totalMs := by
        rw [hrem1]
        simp only [chunkDurationMs]
      by_cases h3 : 1000 < idx + 1
      · rw [if_pos h3]
        simp only [List.getLast?_singleton, hend]
        rfl
      · rw [if_neg h3]
        have hlen := splitLoop_length_aux n totalMs
          (min (cur + chunkDurationMs) totalMs - overlapMs) (idx + 1)
          (by simp only [chunkDurationMs, overlapMs]; omega) (by omega)
        have hrem0 : remCount
            (totalMs - (min (cur + chunkDurationMs) totalMs - overlapMs)) = 0 := by
          apply remCount_zero
          simp only [chunkDurationMs, overlapMs]
          omega
        rw [hrem0] at hlen
        simp only [Nat.zero_min] at hlen
        rw [List.length_eq_zero] at hlen
        rw [hlen]
        simp only [List.getLast?_singleton, hend]
        rfl
    · have hstep := remCount_step hR
      have h3 : ¬ (1000 < idx + 1) := by omega
      rw [if_neg h3]
      have hmin : min (cur + chunkDurationMs) totalMs = cur + 12000 := by
        simp only [chunkDurationMs]
        omega
      have harg : totalMs - (min (cur + chunkDurationMs) totalMs - overlapMs)
          = (totalMs - cur) - 11500 := by
        simp only [chunkDurationMs, overlapMs]
        omega
      have hcur : min (cur + chunkDurationMs) totalMs - overlapMs = cur + 11500 := by
        simp only [chunkDurationMs, overlapMs]
        omega
      have hlen := splitLoop_length_aux n totalMs
        (min (cur + chunkDurationMs) totalMs - overlapMs) (idx + 1)
        (by simp only [chunkDurationMs, overlapMs]; omega) (by omega)
      rw [harg, hstep.1] at hlen
      have htail := ih totalMs (min (cur + chunkDurationMs) totalMs - overlapMs) (idx + 1)
        (by simp only [chunkDurationMs, overlapMs]; omega) (by omega)
        (by rw [harg, hstep.1]; omega) (by rw [harg, hstep.1]; omega)
      rw [harg, hstep.1, hcur] at htail
      have hne : splitLoop totalMs (cur + 11500) (idx + 1) ≠ [] := by
        intro hc
        rw [hcur, hc] at hlen
        simp only [List.length_nil] at hlen
        omega
      obtain ⟨t, ts, hts⟩ := List.exists_cons_of_ne_nil hne
      rw [hcur, hts]
      rw [hts] at htail
      rw [List.getLast?_cons_cons, htail]
      have h4 := hstep.2
      have h5 : cur + 11500 + 11500 * (remCount (totalMs - cur) - 1 - 1) + 12000
          = cur + 11500 * (remCount (totalMs - cur) - 1) + 12000 := by omega
      rw [h5]

lemma split_audio_length (totalMs : ℕ) :
    (split_audio totalMs).length = min (remCount totalMs) 1001 := by
  have h := splitLoop_length_aux totalMs totalMs 0 0 (by omega) (by omega)
  rw [split_audio]
  simpa using h

lemma split_audio_getLast (totalMs : ℕ) (h1 : 1 ≤ remCount totalMs)
    (h2 : remCount totalMs ≤ 1001) :
    (split_audio totalMs).getLast?.map AudioChunk.endMs
      = some (min (11500 * (remCount totalMs - 1) + 12000) totalMs) := by
  have h := splitLoop_getLast_aux totalMs totalMs 0 0 (by omega) (by omega)
    (by simpa using h1) (by simpa using h2)
  rw [split_audio]
  simpa using h

/-- Modelled from the spec: the claimed chunk count `ceil((D − O) / (C − O))`
with `C = 12` s and `O = 0.5` s, in milliseconds (natural-number ceiling
division of `totalMs − 500` by `11500`). -/
def specChunkCount (totalMs : ℕ) : ℕ :=
  (totalMs - 500 + 11499) / 11500

/-- C3 counterexample: a 12.3-second recording.  The spec formula gives
`ceil(11.8 / 11.5) = 2` chunks with the final `end_time = 12.3` s, but the
code drops the trailing 0.8-second sliver (shorter than one second): it emits
exactly one chunk and the final chunk ends at 12.0 s, not at the source
duration. -/
theorem C3_counterexample :
    specChunkCount 12300 = 2 ∧
    (split_audio 12300).length = 1 ∧
    (split_audio 12300).getLast?.map AudioChunk.endMs = some 12000 ∧
    (12000 : ℕ) ≠ 12300 := by
  refine ⟨by norm_num [specChunkCount], ?_, ?_, by omega⟩
  · rw [split_audio_length]
    norm_num [remCount]
  · have h := split_audio_getLast 12300 (by norm_num [remCount]) (by norm_num [remCount])
    rw [h]
    norm_num [remCount]

/-- C3 (amended): with `C = 12` s, `O = 0.5` s, for a recording of
`totalMs ≥ 1000` milliseconds whose chunk count does not hit the safety cap,
the number of emitted chunks is `floor((totalMs − 1000) / 11500) + 1` (the
spec ceiling formula holds only when the trailing slice is at least one
second; a shorter trailing sliver is dropped), and the final chunk ends at
`min(11500·(count−1) + 12000, totalMs)` — equal to the source duration exactly
when no sliver was dropped. -/
theorem C3_chunk_count (totalMs : ℕ) (h1 : 1000 ≤ totalMs)
    (h2 : remCount totalMs ≤ 1000) :
    (split_audio totalMs).length = remCount totalMs ∧
    (split_audio totalMs).getLast?.map AudioChunk.endMs
        = some (min (11500 * (remCount totalMs - 1) + 12000) totalMs) := by
  constructor
  · rw [split_audio_length]
    omega
  · exact split_audio_getLast totalMs (remCount_pos h1) (by omega)

/-- Witness for C3 at a 13-second recording: two chunks, the second ending at
the source duration. -/
theorem C3_chunk_count_witness :
    (1000 ≤ 13000) ∧ (remCount 13000 ≤ 1000) ∧
    ((split_audio 13000).length = remCount 13000 ∧
      (split_audio 13000).getLast?.map AudioChunk.endMs
          = some (min (11500 * (remCount 13000 - 1) + 12000) 13000)) :=
  ⟨by norm_num, by norm_num [remCount],
    C3_chunk_count 13000 (by norm_num) (by norm_num [remCount])⟩

/-- C8 counterexample: a recording of 11512000 ms makes the loop emit 1001
chunks (the cap check `chunk_index > 1000` runs only after the increment), so
more than the claimed 1000. -/
theorem C8_cap_counterexample :
    (split_audio 11512000).length = 1001 ∧ 1000 < 1001 := by
  refine ⟨?_, by omega⟩
  rw [split_audio_length]
  norm_num [remCount]

/-- C8 (amended): the chunker always stops after emitting at most 1001 chunks
(the `chunk_index > 1000` break runs after the emitted count is incremented,
so the bound is 1001, not the claimed 1000). -/
theorem C8_chunk_cap (totalMs : ℕ) : (split_audio totalMs).length ≤ 1001 := by
  rw [split_audio_length]
  omega

/-! ### Extractor shape and norm lemmas: claims C2, C4, C7 -/

lemma length_preEmphasis (a : List ℝ) : (preEmphasis a).length = a.length := by
  cases a with
  | nil => rfl
  | cons x xs =>
    simp only [preEmphasis, List.length_cons, List.length_zipWith]
    omega

lemma length_mfccOfFrame (f : List ℝ) : (mfccOfFrame f).length = 13 := by
  rw [mfccOfFrame]
  simp

lemma extract_mfcc_shape (audio : List ℝ) :
    (extract_mfcc audio).map List.length = List.replicate (numFrames audio.length) 13 := by
  rw [extract_mfcc, signalFrames, length_preEmphasis, List.map_map]
  apply List.eq_replicate_iff.2
  refine ⟨by simp, ?_⟩
  intro b hb
  obtain ⟨i, _, hi⟩ := List.mem_map.mp hb
  rw [← hi]
  exact length_mfccOfFrame _

lemma length_statsVector (m : List (List ℝ)) : (statsVector m).length = 52 := by
  simp [statsVector]

lemma padTo120_statsVector (m : List (List ℝ)) :
    padTo120 (statsVector m) = statsVector m ++ List.replicate 68 0 := by
  rw [padTo120, if_pos (by rw [length_statsVector]; norm_num), length_statsVector]

lemma length_padTo120 (l : List ℝ) : (padTo120 l).length = 120 := by
  rw [padTo120]
  split
  case isTrue h => simp; omega
  case isFalse h => simp; omega

lemma length_l2normalize (v : List ℝ) : (l2normalize v).length = v.length := by
  rw [l2normalize]
  split
  · simp
  · rfl

lemma sumSq_cons (x : ℝ) (l : List ℝ) : sumSq (x :: l) = x ^ 2 + sumSq l := by
  simp [sumSq]

lemma sumSq_nonneg (v : List ℝ) : 0 ≤ sumSq v := by
  rw [sumSq]
  apply List.sum_nonneg
  intro x hx
  obtain ⟨y, _, rfl⟩ := List.mem_map.mp hx
  positivity

lemma sumSq_map_div (v : List ℝ) (n : ℝ) :
    sumSq (v.map fun x => x / n) = sumSq v / n ^ 2 := by
  induction v with
  | nil => simp [sumSq]
  | cons a l ih =>
    rw [List.map_cons, sumSq_cons, sumSq_cons, ih, div_pow, add_div]

lemma sumSq_eq_zero_iff (v : List ℝ) : sumSq v = 0 ↔ ∀ x ∈ v, x = 0 := by
  induction v with
  | nil => simp [sumSq]
  | cons a l ih =>
    rw [sumSq_cons]
    constructor
    · intro h
      have h1 := (add_eq_zero_iff_of_nonneg (sq_nonneg a) (sumSq_nonneg l)).mp h
      intro x hx
      rcases List.mem_cons.mp hx with rfl | hx
      · exact pow_eq_zero_iff (two_ne_zero) |>.mp h1.1
      · exact (ih.mp h1.2) x hx
    · intro h
      rw [h a (List.mem_cons_self a l), ih.mpr fun x hx => h x (List.mem_cons_of_mem a hx)]
      norm_num

lemma l2normalize_norm_cases (v : List ℝ) :
    Real.sqrt (sumSq (l2normalize v)) = 1 ∨ (l2normalize v = v ∧ sumSq v = 0) := by
  rw [l2normalize]
  split
  case isTrue h =>
    left
    have h0 : sumSq v ≠ 0 := by
      intro hc
      rw [hc, Real.sqrt_zero] at h
      exact lt_irrefl 0 h
    have hsq : Real.sqrt (sumSq v) ^ 2 = sumSq v := Real.sq_sqrt (sumSq_nonneg v)
    rw [sumSq_map_div, hsq, div_self h0, Real.sqrt_one]
  case isFalse h =>
    right
    refine ⟨rfl, ?_⟩
    have h0 : Real.sqrt (sumSq v) = 0 :=
      le_antisymm (not_lt.mp h) (Real.sqrt_nonneg (sumSq v))
    exact (Real.sqrt_eq_zero (sumSq_nonneg v)).mp h0

lemma theEmbedding_norm (audio : List ℝ) :
    (theEmbedding audio).length = 120 ∧
    (Real.sqrt (sumSq (theEmbedding audio)) = 1 ∨
      theEmbedding audio = List.replicate 120 0) := by
  refine ⟨by rw [theEmbedding, length_l2normalize, length_padTo120], ?_⟩
  rcases l2normalize_norm_cases
      (padTo120 (statsVector (extract_mfcc (amplitudeNormalize audio)))) with h | ⟨heq, hz⟩
  · left
    rw [theEmbedding]
    exact h
  · right
    rw [theEmbedding, heq]
    apply List.eq_replicate_iff.2
    exact ⟨length_padTo120 _, fun b hb => (sumSq_eq_zero_iff _).mp hz b hb⟩

lemma extract_ok (audio : List ℝ) (h1 : audio ≠ []) (h2 : numFrames audio.length ≠ 0) :
    extract_speaker_embedding audio = Except.ok (theEmbedding audio) := by
  obtain ⟨x, xs, rfl⟩ := List.exists_cons_of_ne_nil h1
  simp only [extract_speaker_embedding]
  rw [if_neg h2]

lemma numFrames_pos_of_lt {L : ℕ} (h : L < 512) : numFrames L ≠ 0 := by
  rw [numFrames]
  have habs : ((L : ℤ) - 512).natAbs = 512 - L := by omega
  rw [habs]
  have h160 : 160 ≤ 512 - L + 159 := by omega
  have := (Nat.one_le_div_iff (by norm_num : 0 < 160)).mpr h160
  omega

/-- C2 counterexample: a 399-sample signal (shorter than one 25 ms analysis
window of 400 samples at 16 kHz) does not make the extractor fail: the
`abs` in the frame-count formula gives a positive frame count, the frame
buffer is zero-padded, and a 120-dimensional embedding is returned. -/
theorem C2_counterexample :
    extract_speaker_embedding (List.replicate 399 (1 : ℝ))
      = Except.ok (theEmbedding (List.replicate 399 (1 : ℝ))) :=
  extract_ok _
    (by
      intro hc
      have h := congrArg List.length hc
      rw [List.length_replicate] at h
      exact absurd h (by norm_num))
    (by
      rw [List.length_replicate]
      exact numFrames_pos_of_lt (by norm_num))

/-- C2 (amended): there is no `InsufficientAudio` error anywhere in the
extractor.  For every non-empty input signal with fewer samples than one
analysis window, extraction succeeds and returns the embedding (the framing
stage computes `ceil(abs(len − 512)/160) ≥ 1` frames and zero-pads); only the
empty signal, or a signal of exactly 512 samples, makes the pipeline raise a
generic `ValueError`. -/
theorem C2_short_input (audio : List ℝ) (h1 : audio ≠ []) (h2 : audio.length < 400) :
    extract_speaker_embedding audio = Except.ok (theEmbedding audio) :=
  extract_ok audio h1 (numFrames_pos_of_lt (by omega))

/-- Witness for C2 at a one-sample signal. -/
theorem C2_short_input_witness :
    ([(1 : ℝ)] ≠ []) ∧ ([(1 : ℝ)].length < 400) ∧
    extract_speaker_embedding [(1 : ℝ)] = Except.ok (theEmbedding [(1 : ℝ)]) :=
  ⟨by simp, by simp, C2_short_input [(1 : ℝ)] (by simp) (by simp)⟩

/-- C4 counterexample: on a concrete 672-sample signal the extractor computes
one frame of exactly 13 MFCC coefficients (not the claimed 60 features of
MFCC plus delta plus delta-delta), and the statistics vector is the 52 values
mean, std, min and max per coefficient (not a 120-value mean-and-std), which
is then zero-padded. -/
theorem C4_counterexample :
    (extract_mfcc (List.replicate 672 (1 : ℝ))).map List.length = [13] ∧
    (13 : ℕ) ≠ 60 ∧
    (statsVector (extract_mfcc (amplitudeNormalize (List.replicate 672 (1 : ℝ))))).length = 52 ∧
    (52 : ℕ) ≠ 120 := by
  refine ⟨?_, by omega, length_statsVector _, by omega⟩
  rw [extract_mfcc_shape]
  have h : numFrames (List.replicate 672 (1 : ℝ)).length = 1 := by
    simp only [List.length_replicate]
    decide
  rw [h]
  rfl

/-- C4 (amended): every per-frame feature row of the extractor holds exactly
13 MFCC coefficients (DCT coefficients 1..13 of the 40-channel log-mel
spectrum) with no delta or delta-delta features; the embedding before padding
is the per-coefficient mean, standard deviation, minimum and maximum across
frames (52 values), and it is zero-padded with 68 zeros to reach the
120-dimensional output. -/
theorem C4_feature_shape (audio : List ℝ) :
    (extract_mfcc audio).map List.length = List.replicate (numFrames audio.length) 13 ∧
    (statsVector (extract_mfcc (amplitudeNormalize audio))).length = 52 ∧
    padTo120 (statsVector (extract_mfcc (amplitudeNormalize audio)))
        = statsVector (extract_mfcc (amplitudeNormalize audio)) ++ List.replicate 68 0 ∧
    (theEmbedding audio).length = 120 :=
  ⟨extract_mfcc_shape audio, length_statsVector _, padTo120_statsVector _,
    (theEmbedding_norm audio).1⟩

/-- C7: every embedding the extractor returns has exactly 120 entries, and
its L2 norm is exactly 1 (hence within 1e-6 of 1.0) unless the
pre-normalization vector has zero norm, in which case the all-zero vector is
returned unchanged. -/
theorem C7_embedding_norm (audio : List ℝ) (h1 : audio ≠ [])
    (h2 : numFrames audio.length ≠ 0) :
    extract_speaker_embedding audio = Except.ok (theEmbedding audio) ∧
    (theEmbedding audio).length = 120 ∧
    (Real.sqrt (sumSq (theEmbedding audio)) = 1 ∨
      theEmbedding audio = List.replicate 120 0) :=
  ⟨extract_ok audio h1 h2, (theEmbedding_norm audio).1, (theEmbedding_norm audio).2⟩

/-- Witness for C7 at a one-sample signal. -/
theorem C7_embedding_norm_witness :
    ([(1 : ℝ)] ≠ []) ∧ (numFrames [(1 : ℝ)].length ≠ 0) ∧
    (extract_speaker_embedding [(1 : ℝ)] = Except.ok (theEmbedding [(1 : ℝ)]) ∧
      (theEmbedding [(1 : ℝ)]).length = 120 ∧
      (Real.sqrt (sumSq (theEmbedding [(1 : ℝ)])) = 1 ∨
        theEmbedding [(1 : ℝ)] = List.replicate 120 0)) :=
  ⟨by simp, by decide, C7_embedding_norm [(1 : ℝ)] (by simp) (by decide)⟩

end Sayly
